import Mathlib

/-!
Verification of the veroviz 2D shapepoint / geometry core.

This file gives a shallow embedding, in Lean 4, of the shapepoint-assembly
pipeline of `src/veroviz/getShapepoints2D.py` and of the geometric utilities
of `src/veroviz/utilities.py` (isPointInPoly, closestPointLoc2Path,
getConvexHull), together with theorems settling the behavioural claims about
that code.

Modelling conventions:
* Python floats are modelled as rationals (`ℚ`); "within floating tolerance"
  claims become exact equalities.
* A location is modelled exactly as the source handles it: a Python list of
  numbers, `List ℚ`, of length 2 (`[lat, lon]`) or 3 (`[lat, lon, alt]`).
  Python's list equality (`startLoc != endLoc`) is `List` equality.
* Fallible code is `Option`-valued: `none` models "no dataframe is produced"
  (a validation failure that prints and returns `None`, the bare `return`
  for an unrecognized routeType/dataProvider combination, or an uncaught
  runtime error such as `ZeroDivisionError`/`TypeError`/`KeyError`).
* The network route providers (pgRouting / OSRM / MapQuest / ORS) are
  external collaborators (spec §1, §6): their already-fetched
  (path, time, dist) triple is passed as the explicit argument `prov`.
  Likewise `scipy.spatial.ConvexHull` is external: the 2D hull's vertex
  indices are passed as an explicit argument to `getConvexHull`.
* Helper modules of this repository that are not under `src/`
  (`veroviz._validation`, `veroviz._internal`, `veroviz._geometry`,
  `veroviz._common`) are modelled from the spec; each such definition's
  doc comment starts with `Modelled from the spec:`.
* Pure display metadata (leaflet/cesium colours etc.) is copied verbatim
  onto every output row by the source (spec §3 treats it as opaque); it is
  irrelevant to every claim and omitted from the embedded `Row`.
* The source's advisory "too far from the road" messages (lines 289-297)
  only print; they do not affect the returned rows and are omitted.
-/

/-- A Python location list: `[lat, lon]` or `[lat, lon, alt]`. -/
abbrev Loc := List ℚ

/-- Lowercasing of ASCII strings, as `str.lower()` is used by the source on
`routeType` and `dataProvider` (source lines 260-268). -/
def lowerChar (c : Char) : Char :=
  if 65 ≤ c.toNat ∧ c.toNat ≤ 90 then Char.ofNat (c.toNat + 32) else c

/-- String lowercasing (ASCII), structural so that it evaluates. -/
def lowerStr (s : String) : String := String.mk (s.data.map lowerChar)

/-- Modelled from the spec: `veroviz._geometry.geoDistance2D` is not under
`src/`.  The spec (§4.1, §8) constrains the geodesic distance to be
symmetric, nonnegative and zero exactly when the two points' 2D coordinates
coincide, ignoring altitude; the great-circle formula itself is not
rational-representable, so this model uses a metric with exactly those
stated properties (the taxicab metric on (lat, lon) degrees). -/
def geoDistance2D (a b : Loc) : ℚ :=
  |a.getD 0 0 - b.getD 0 0| + |a.getD 1 0 - b.getD 1 0|

/-- The dictionary view of a location used when building rows. -/
structure LocDict where
  lat : ℚ
  lon : ℚ
  alt : ℚ
deriving DecidableEq

/-- Modelled from the spec: `veroviz._internal.loc2Dict` is not under `src/`.
Spec §3: a location is a 2- or 3-tuple, the altitude defaulting to 0. -/
def loc2Dict (l : Loc) : LocDict :=
  { lat := l.getD 0 0, lon := l.getD 1 0,
    alt := if l.length = 3 then l.getD 2 0 else 0 }

/-- One Assignments row (source lines 329-353 and 358-382), restricted to the
odID-independent spatio-temporal fields; the display metadata the source
copies verbatim onto every row is opaque pass-through (spec §3) and omitted. -/
structure Row where
  startTimeSec : ℚ
  startLat : ℚ
  startLon : ℚ
  startAltMeters : ℚ
  endTimeSec : ℚ
  endLat : ℚ
  endLon : ℚ
  endAltMeters : ℚ
deriving DecidableEq

/-- Modelled from the spec: `veroviz._common.dataProviderDictionary` is not
under `src/`.  Spec §1/§6 list the supported providers (pgRouting, OSRM,
MapQuest, ORS); the dictionary canonicalizes a lowercased provider string,
and a missing key (Python `KeyError`) is `none`. -/
def dataProviderDictionary (s : String) : Option String :=
  if s = "pgrouting" then some ("pgrouting")
  else if s = "osrm-online" then some ("osrm-online")
  else if s = "mapquest" then some ("mapquest")
  else if s = "ors-online" then some ("ors-online")
  else none

/-- Lookup of an optional provider string in the provider dictionary. -/
def provLookup (dp : Option String) : Option String :=
  dp.bind dataProviderDictionary

/-- The routeType/dataProvider pairings recognized by the dispatch chain of
the source (lines 270-287), on already-lowercased strings. -/
def recognizedCombo (rt : String) (dp : Option String) : Prop :=
  rt = "euclidean2d" ∨ rt = "manhattan"
  ∨ (rt = "fastest" ∧ provLookup dp = some ("pgrouting"))
  ∨ (rt = "fastest" ∧ provLookup dp = some ("osrm-online"))
  ∨ ((rt = "fastest" ∨ rt = "shortest" ∨ rt = "pedestrian")
      ∧ provLookup dp = some ("mapquest"))
  ∨ ((rt = "fastest" ∨ rt = "pedestrian" ∨ rt = "cycling" ∨ rt = "truck")
      ∧ provLookup dp = some ("ors-online"))

instance (rt : String) (dp : Option String) : Decidable (recognizedCombo rt dp) := by
  unfold recognizedCombo; infer_instance

/-- A well-formed location: 2 or 3 components, lat/lon in degree range. -/
def validLoc (l : Loc) : Prop :=
  (l.length = 2 ∨ l.length = 3)
  ∧ -90 ≤ l.getD 0 0 ∧ l.getD 0 0 ≤ 90 ∧ -180 ≤ l.getD 1 0 ∧ l.getD 1 0 ≤ 180

instance (l : Loc) : Decidable (validLoc l) := by
  unfold validLoc; infer_instance

/-- Modelled from the spec: `veroviz._validation.valGetShapepoints2D` is not
under `src/`.  Spec §7: invalid input is a malformed location or an
unsupported route-type/provider pairing, signaled immediately with nothing
returned; speeds must be usable (positive) and the no-provider route types
(euclidean2D / manhattan) need a duration or a speed to compute times
(source docstring for `speedMPS`). -/
def valGetShapepoints2D (startLoc endLoc : Loc) (startTimeSec : ℚ)
    (expDurationSec : Option ℚ) (routeType : String) (speedMPS : Option ℚ)
    (dataProvider : Option String) : Prop :=
  validLoc startLoc ∧ validLoc endLoc
  ∧ 0 ≤ startTimeSec
  ∧ (∀ d, expDurationSec = some d → 0 ≤ d)
  ∧ (∀ v, speedMPS = some v → 0 < v)
  ∧ recognizedCombo (lowerStr routeType) (dataProvider.map lowerStr)
  ∧ ((lowerStr routeType = "euclidean2d" ∨ lowerStr routeType = "manhattan")
      → (expDurationSec.isSome ∨ speedMPS.isSome))

instance (s e : Loc) (t : ℚ) (x : Option ℚ) (rt : String) (v : Option ℚ)
    (dp : Option String) : Decidable (valGetShapepoints2D s e t x rt v dp) := by
  unfold valGetShapepoints2D
  exact instDecidableAnd

/-- Travel-time list of the euclidean generator (source lines 389-392):
`[0, expDurationSec]` when a duration is supplied, else `[0, dist/speed]`.
`none` models the Python `TypeError`/`ZeroDivisionError` when `speedMPS` is
missing or zero. -/
def eucTime (d : ℚ) (speedMPS expDurationSec : Option ℚ) : Option (List ℚ) :=
  match expDurationSec with
  | some dur => some [0, dur]
  | none =>
    match speedMPS with
    | some v => if v = 0 then none else some [0, d / v]
    | none => none

/-- `_eucGetShapepointsTimeDist` (source lines 386-393): straight segment
from start to end. -/
def _eucGetShapepointsTimeDist (startLoc endLoc : Loc)
    (speedMPS expDurationSec : Option ℚ) :
    Option (List Loc × List ℚ × List ℚ) :=
  (eucTime (geoDistance2D startLoc endLoc) speedMPS expDurationSec).map
    (fun t => ([startLoc, endLoc], t, [0, geoDistance2D startLoc endLoc]))

/-- The manhattan corner (source lines 397-402): with `verticalFirst` (the
default) the vehicle first goes north/south, so the corner is
`[endLoc[0], startLoc[1]]`; otherwise `[startLoc[0], endLoc[1]]`. -/
def manCorner (startLoc endLoc : Loc) (verticalFirst : Bool) : Loc :=
  if verticalFirst then [endLoc.getD 0 0, startLoc.getD 1 0]
  else [startLoc.getD 0 0, endLoc.getD 1 0]

/-- Travel-time list of the manhattan generator (source lines 404-407): a
supplied duration is split proportionally to the two segment lengths,
otherwise each segment takes length/speed.  `none` models the Python
`ZeroDivisionError` when `d1 + d2 = 0` and the `TypeError` /
`ZeroDivisionError` when `speedMPS` is missing or zero. -/
def manTime (d1 d2 : ℚ) (speedMPS expDurationSec : Option ℚ) : Option (List ℚ) :=
  match expDurationSec with
  | some dur =>
    if d1 + d2 = 0 then none
    else some [0, dur * d1 / (d1 + d2), dur * d2 / (d1 + d2)]
  | none =>
    match speedMPS with
    | some v => if v = 0 then none else some [0, d1 / v, d2 / v]
    | none => none

/-- `_manGetShapepointsTimeDist` (source lines 395-409). -/
def _manGetShapepointsTimeDist (startLoc endLoc : Loc)
    (speedMPS expDurationSec : Option ℚ) (verticalFirst : Bool := true) :
    Option (List Loc × List ℚ × List ℚ) :=
  (manTime (geoDistance2D startLoc (manCorner startLoc endLoc verticalFirst))
      (geoDistance2D (manCorner startLoc endLoc verticalFirst) endLoc)
      speedMPS expDurationSec).map
    (fun t => ([startLoc, manCorner startLoc endLoc verticalFirst, endLoc], t,
      [0, geoDistance2D startLoc (manCorner startLoc endLoc verticalFirst),
        geoDistance2D (manCorner startLoc endLoc verticalFirst) endLoc]))

/-- Per-segment geodesic lengths of a path. -/
def pathSegs (path : List Loc) : List ℚ :=
  List.zipWith geoDistance2D path path.tail

/-- `n` per-segment times putting the whole duration on the final segment. -/
def allOnLast (n : ℕ) (dur : ℚ) : List ℚ :=
  if n = 0 then [] else List.replicate (n - 1) 0 ++ [dur]

/-- Modelled from the spec: `veroviz._internal.distributeTimeDist` is not
under `src/`.  Spec §4.3: `newTime[i] = D * length[i] / totalLength`; when
`totalLength = 0` the duration is distributed deterministically, the spec's
documented choice (§9) being to assign all of `D` to the final segment.
Returns `(newTime, newDist)` with the source's leading-zero list convention
(`time[0] = dist[0] = 0`, cf. `_eucGetShapepointsTimeDist`). -/
def distributeTimeDist (path : List Loc) (dur : ℚ) : List ℚ × List ℚ :=
  (0 :: (if (pathSegs path).sum = 0 then allOnLast (pathSegs path).length dur
    else (pathSegs path).map (fun s => dur * s / (pathSegs path).sum)),
   0 :: pathSegs path)

/-- The source's accumulation loops (lines 300-303 and 317-320):
`accFrom a [x1, x2, ...] = [a, a + x1, a + x1 + x2, ...]`. -/
def accFrom (a : ℚ) : List ℚ → List ℚ
  | [] => [a]
  | x :: xs => a :: accFrom (a + x) xs

/-- One output row for the consecutive pair `(pA, pB)` of path points with
accumulated times `tA`, `tB` (source lines 330-353). -/
def mkRow (pA pB : Loc) (tA tB : ℚ) : Row :=
  { startTimeSec := tA, startLat := (loc2Dict pA).lat,
    startLon := (loc2Dict pA).lon, startAltMeters := (loc2Dict pA).alt,
    endTimeSec := tB, endLat := (loc2Dict pB).lat,
    endLon := (loc2Dict pB).lon, endAltMeters := (loc2Dict pB).alt }

/-- The row-generation loop (source lines 329-353): one row per consecutive
pair of path points, sharing the accumulated-time list. -/
def mkRows : List Loc → List ℚ → List Row
  | p1 :: p2 :: ps, t1 :: t2 :: ts => mkRow p1 p2 t1 t2 :: mkRows (p2 :: ps) (t2 :: ts)
  | _, _ => []

/-- The single degenerate row emitted when `startLoc == endLoc`
(source lines 354-382). -/
def singleRow (startLoc : Loc) (startTimeSec : ℚ) (expDurationSec : Option ℚ) : Row :=
  { startTimeSec := startTimeSec,
    startLat := (loc2Dict startLoc).lat, startLon := (loc2Dict startLoc).lon,
    startAltMeters := (loc2Dict startLoc).alt,
    endTimeSec := match expDurationSec with
      | some dur => dur + startTimeSec
      | none => startTimeSec,
    endLat := (loc2Dict startLoc).lat, endLon := (loc2Dict startLoc).lon,
    endAltMeters := (loc2Dict startLoc).alt }

/-- The dispatch chain (source lines 271-287) on lowercased strings.  Outer
`none` is the final bare `return` (unrecognized combination) and also covers
the Python `KeyError` on an unknown provider; `some none` is a runtime error
inside a no-provider generator; provider branches use the externally fetched
triple `prov` (spec §6). -/
def selectRoute (rt : String) (dp : Option String) (startLoc endLoc : Loc)
    (speedMPS expDurationSec : Option ℚ)
    (prov : List Loc × List ℚ × List ℚ) :
    Option (Option (List Loc × List ℚ × List ℚ)) :=
  if rt = "euclidean2d" then
    some (_eucGetShapepointsTimeDist startLoc endLoc speedMPS expDurationSec)
  else if rt = "manhattan" then
    some (_manGetShapepointsTimeDist startLoc endLoc speedMPS expDurationSec)
  else if rt = "fastest" ∧ provLookup dp = some ("pgrouting") then
    some (some prov)
  else if rt = "fastest" ∧ provLookup dp = some ("osrm-online") then
    some (some prov)
  else if (rt = "fastest" ∨ rt = "shortest" ∨ rt = "pedestrian")
      ∧ provLookup dp = some ("mapquest") then
    some (some prov)
  else if (rt = "fastest" ∨ rt = "pedestrian" ∨ rt = "cycling" ∨ rt = "truck")
      ∧ provLookup dp = some ("ors-online") then
    some (some prov)
  else none

/-- The timing/assembly stage (source lines 299-353): accumulate distances,
override the per-segment times when `expDurationSec` (or, failing that,
`speedMPS`) is supplied, accumulate times from `startTimeSec`, and emit one
row per consecutive pair of path points.  In the no-override branch the raw
provider lists must line up with the path (otherwise Python raises
`IndexError`, modelled as `none`). -/
def assemble (startTimeSec : ℚ) (expDurationSec speedMPS : Option ℚ)
    (ptd : List Loc × List ℚ × List ℚ) : Option (List Row) :=
  match expDurationSec with
  | some dur =>
    some (mkRows ptd.1 (accFrom startTimeSec ((distributeTimeDist ptd.1 dur).1).tail))
  | none =>
    match speedMPS with
    | some v =>
      if v = 0 then none
      else
        some (mkRows ptd.1 (accFrom startTimeSec
          ((distributeTimeDist ptd.1
            (((accFrom 0 (ptd.2.2).tail).getLast?).getD 0 / v)).1).tail))
    | none =>
      if (ptd.2.1).length = ptd.1.length ∧ (ptd.2.2).length = ptd.1.length then
        some (mkRows ptd.1 (accFrom startTimeSec ((ptd.2.1).tail)))
      else none

/-- `getShapepoints2D` (source lines 19, 249-384): validation gate, lowercase
normalization, the `startLoc != endLoc` (Python list equality) split between
the dispatch/assembly pipeline and the single degenerate row. -/
def getShapepoints2D (startLoc endLoc : Loc) (startTimeSec : ℚ)
    (expDurationSec : Option ℚ) (routeType : String) (speedMPS : Option ℚ)
    (dataProvider : Option String)
    (prov : List Loc × List ℚ × List ℚ) : Option (List Row) :=
  if ¬ valGetShapepoints2D startLoc endLoc startTimeSec expDurationSec
      routeType speedMPS dataProvider then none
  else if startLoc = endLoc then
    some [singleRow startLoc startTimeSec expDurationSec]
  else
    match selectRoute (lowerStr routeType) (dataProvider.map lowerStr)
        startLoc endLoc speedMPS expDurationSec prov with
    | none => none
    | some none => none
    | some (some ptd) => assemble startTimeSec expDurationSec speedMPS ptd

/-! ### Geometric predicates (`src/veroviz/utilities.py`) -/

/-- 2D projection of a location, as the sources' `[loc[0], loc[1]]`. -/
def proj2 (l : Loc) : ℚ × ℚ := (l.getD 0 0, l.getD 1 0)

/-- z-component of the cross product of `(b - a)` and `(c - a)`. -/
def cross2 (a b c : ℚ × ℚ) : ℚ :=
  (b.1 - a.1) * (c.2 - a.2) - (b.2 - a.2) * (c.1 - a.1)

/-- `p` lies on the closed segment from `a` to `b`. -/
def onSegment2 (p a b : ℚ × ℚ) : Prop :=
  cross2 a b p = 0
  ∧ min a.1 b.1 ≤ p.1 ∧ p.1 ≤ max a.1 b.1
  ∧ min a.2 b.2 ≤ p.2 ∧ p.2 ≤ max a.2 b.2

instance (p a b : ℚ × ℚ) : Decidable (onSegment2 p a b) := by
  unfold onSegment2; infer_instance

/-- The edges of an implicitly closed polygon (spec §3): consecutive vertex
pairs plus the closing edge from the last vertex back to the first. -/
def polyEdges : List (ℚ × ℚ) → List ((ℚ × ℚ) × (ℚ × ℚ))
  | [] => []
  | p :: ps => List.zip (p :: ps) (ps ++ [p])

/-- A horizontal ray from `p` crosses the edge `e` (standard ray casting). -/
def rayCrosses (p : ℚ × ℚ) (e : (ℚ × ℚ) × (ℚ × ℚ)) : Prop :=
  ((e.1.2 ≤ p.2 ∧ p.2 < e.2.2) ∨ (e.2.2 ≤ p.2 ∧ p.2 < e.1.2))
  ∧ p.1 < e.1.1 + (e.2.1 - e.1.1) * (p.2 - e.1.2) / (e.2.2 - e.1.2)

instance (p : ℚ × ℚ) (e : (ℚ × ℚ) × (ℚ × ℚ)) : Decidable (rayCrosses p e) := by
  unfold rayCrosses; infer_instance

/-- Modelled from the spec: `veroviz._geometry.geoIsPointInPoly` is not under
`src/`.  Spec §4.5: a standard ray-casting test in 2D, boundary-inclusive —
a point exactly on an edge or vertex counts as inside. -/
def geoIsPointInPoly (p : ℚ × ℚ) (poly : List (ℚ × ℚ)) : Bool :=
  if (polyEdges poly).any (fun e => decide (onSegment2 p e.1 e.2)) then true
  else decide ((polyEdges poly).countP (fun e => decide (rayCrosses p e)) % 2 = 1)

/-- Modelled from the spec: `veroviz._validation.valIsPointInPoly` is not
under `src/`.  Spec §3/§7: locations are 2- or 3-component, a polygon with
fewer than 3 vertices is degenerate and invalid. -/
def valIsPointInPoly (loc : Loc) (poly : List Loc) : Prop :=
  (loc.length = 2 ∨ loc.length = 3)
  ∧ 3 ≤ poly.length
  ∧ ∀ q ∈ poly, q.length = 2 ∨ q.length = 3

instance (loc : Loc) (poly : List Loc) : Decidable (valIsPointInPoly loc poly) := by
  unfold valIsPointInPoly; infer_instance

/-- `isPointInPoly` (source lines 1295-1392): validation gate, strip loc and
polygon vertices to 2D, delegate to the geometric point-in-polygon test. -/
def isPointInPoly (loc : Loc) (poly : List Loc) : Option Bool :=
  if ¬ valIsPointInPoly loc poly then none
  else some (geoIsPointInPoly (proj2 loc) (poly.map proj2))

/-- Clamp a projection parameter to the unit interval `[0, 1]`. -/
def clampUnit (t : ℚ) : ℚ := max 0 (min 1 t)

/-- Projection parameter of `loc` onto the 2D line through `a` and `b`
(dot product over squared length; callers guard the zero-length case). -/
def segParam (loc a b : Loc) : ℚ :=
  (((proj2 loc).1 - (proj2 a).1) * ((proj2 b).1 - (proj2 a).1)
    + ((proj2 loc).2 - (proj2 a).2) * ((proj2 b).2 - (proj2 a).2))
  / (((proj2 b).1 - (proj2 a).1) ^ 2 + ((proj2 b).2 - (proj2 a).2) ^ 2)

/-- Modelled from the spec: `veroviz._geometry.geoClosestPointLoc2Line` is
not under `src/`.  Spec §4.5: for a location and one segment, the nearest
point on the segment (not just its endpoints), computed in 2D with altitude
ignored; 3-component inputs yield a 3-component result (the returned point
carries the segment's first-endpoint altitude, cf. the source docstring of
`closestPointLoc2Path`, Example 3).  Degenerate zero-length segments take
the endpoint itself (spec §4.1: callers special-case zero-length). -/
def geoClosestPointLoc2Line (loc : Loc) (a b : Loc) : Loc :=
  if ((proj2 b).1 - (proj2 a).1) ^ 2 + ((proj2 b).2 - (proj2 a).2) ^ 2 = 0 then
    (if a.length = 3 then [(proj2 a).1, (proj2 a).2, a.getD 2 0]
      else [(proj2 a).1, (proj2 a).2])
  else
    (if a.length = 3 then
      [(proj2 a).1 + clampUnit (segParam loc a b) * ((proj2 b).1 - (proj2 a).1),
        (proj2 a).2 + clampUnit (segParam loc a b) * ((proj2 b).2 - (proj2 a).2),
        a.getD 2 0]
      else
      [(proj2 a).1 + clampUnit (segParam loc a b) * ((proj2 b).1 - (proj2 a).1),
        (proj2 a).2 + clampUnit (segParam loc a b) * ((proj2 b).2 - (proj2 a).2)])

/-- Modelled from the spec: `veroviz._geometry.geoMinDistLoc2Line` is not
under `src/`.  Spec §4.5: the minimum distance from a location to one
segment.  The true metre distance involves a square root, which is not
rational-representable; the model returns the squared 2D distance to the
nearest segment point, which induces the same comparisons in the
minimization loop of `closestPointLoc2Path`. -/
def geoMinDistLoc2Line (loc : Loc) (a b : Loc) : ℚ :=
  ((proj2 loc).1 - (geoClosestPointLoc2Line loc a b).getD 0 0) ^ 2
  + ((proj2 loc).2 - (geoClosestPointLoc2Line loc a b).getD 1 0) ^ 2

/-- Zero the altitude component of a 3-component point, as the in-loop
`if (len(minPoint)==3): minPoint[2] = 0` of the source (lines 1838-1839). -/
def zeroAlt (l : Loc) : Loc := if l.length = 3 then l.set 2 0 else l

/-- The update test of the minimization loop: any candidate beats the
initial infinity (`none`); afterwards only a strictly smaller distance
(`tmpDistMeters < distMeters`, source line 1834) updates. -/
def cpBetter (tmp : ℚ) : Option ℚ → Bool
  | none => true
  | some d => decide (tmp < d)

/-- The minimization loop of `closestPointLoc2Path` (source lines 1829-1839):
`distMeters` starts at infinity (modelled as `none`), the candidate point is
replaced on a strict improvement, and after each iteration the current
candidate's altitude (if present) is zeroed in place. -/
def cpLoop (loc : Loc) : List (Loc × Loc) → Option ℚ → Option Loc → Option ℚ × Option Loc
  | [], d, mp => (d, mp)
  | ln :: rest, d, mp =>
    cpLoop loc rest
      (if cpBetter (geoMinDistLoc2Line loc ln.1 ln.2) d
        then some (geoMinDistLoc2Line loc ln.1 ln.2) else d)
      ((if cpBetter (geoMinDistLoc2Line loc ln.1 ln.2) d
        then some (geoClosestPointLoc2Line loc ln.1 ln.2) else mp).map zeroAlt)

/-- Modelled from the spec: `veroviz._validation.valClosestPointLoc2Path` is
not under `src/`.  A location has 2 or 3 components and a path (spec §3)
has at least 2 points, each with 2 or 3 components. -/
def valClosestPointLoc2Path (loc : Loc) (path : List Loc) : Prop :=
  (loc.length = 2 ∨ loc.length = 3)
  ∧ 2 ≤ path.length
  ∧ ∀ q ∈ path, q.length = 2 ∨ q.length = 3

instance (loc : Loc) (path : List Loc) : Decidable (valClosestPointLoc2Path loc path) := by
  unfold valClosestPointLoc2Path; infer_instance

/-- `closestPointLoc2Path` (source lines 1775-1841): validation gate (a
failure returns `(None, None)`, modelled `none`), build the consecutive
segment list, run the minimization loop. -/
def closestPointLoc2Path (loc : Loc) (path : List Loc) : Option (Loc × ℚ) :=
  if ¬ valClosestPointLoc2Path loc path then none
  else
    match cpLoop loc (List.zip path path.tail) none none with
    | (some d, some mp) => some (mp, d)
    | _ => none

/-! ### Convex hull re-matching (`getConvexHull`, source lines 1281-1293) -/

/-- The source's re-matching tolerance test (line 1290): absolute difference
below 0.0001 degrees on both latitude and longitude. -/
def nearHullVertex (c lj : Loc) : Prop :=
  |c.getD 0 0 - lj.getD 0 0| < 1 / 10000 ∧ |c.getD 1 0 - lj.getD 1 0| < 1 / 10000

instance (c lj : Loc) : Decidable (nearHullVertex c lj) := by
  unfold nearHullVertex; infer_instance

/-- Modelled from the spec: `veroviz._validation.valGetConvexHull` is not
under `src/`.  A hull needs at least 3 well-formed locations. -/
def valGetConvexHull (locs : List Loc) : Prop :=
  3 ≤ locs.length ∧ ∀ q ∈ locs, q.length = 2 ∨ q.length = 3

instance (locs : List Loc) : Decidable (valGetConvexHull locs) := by
  unfold valGetConvexHull; infer_instance

/-- `getConvexHull` (source lines 1274-1293).  `scipy.spatial.ConvexHull` is
an external library (spec §1, "convex hull via an external library call"),
so the indices of the 2D hull's vertices, in hull order, are the explicit
argument `hullIdx`; `ch2D = [locs[i] for i in hullIdx]`.  The output is
rebuilt by the nested re-matching loops: for each hull vertex in order,
every input location within the 0.0001-degree tolerance of it is appended. -/
def getConvexHull (locs : List Loc) (hullIdx : List ℕ) : Option (List Loc) :=
  if ¬ valGetConvexHull locs then none
  else
    some ((hullIdx.map (fun i => locs.getD i [])).flatMap
      (fun c => locs.filter (fun lj => decide (nearHullVertex c lj))))

/-! ### Contiguity of an Assignments dataframe -/

/-- Row `r2` continues row `r1`: matching timestamps and 2D coordinates. -/
def rowsLinked (r1 r2 : Row) : Prop :=
  r1.endTimeSec = r2.startTimeSec ∧ r1.endLat = r2.startLat ∧ r1.endLon = r2.startLon

/-- Every row of the list is continued by its successor. -/
def chainOk : List Row → Prop
  | [] => True
  | [_] => True
  | r1 :: r2 :: rest => rowsLinked r1 r2 ∧ chainOk (r2 :: rest)

/-- The dataframe is contiguous and starts at time `t0`: the first row (if
any) departs at `t0`, and each row's end time and end 2D coordinates equal
the next row's start time and start 2D coordinates. -/
def contiguousFrom (t0 : ℚ) (rows : List Row) : Prop :=
  (match rows with
    | [] => True
    | r :: _ => r.startTimeSec = t0)
  ∧ chainOk rows


/-- The point lies on the boundary of the (implicitly closed) polygon: on
some edge, a vertex being the degenerate start of its outgoing edge. -/
def onPolyBoundary (p : ℚ × ℚ) (poly2 : List (ℚ × ℚ)) : Prop :=
  ∃ e ∈ polyEdges poly2, onSegment2 p e.1 e.2

/-- Every point of the path has three components (`[lat, lon, alt]`). -/
def allThreeComp (path : List Loc) : Prop := ∀ q ∈ path, q.length = 3

instance (path : List Loc) : Decidable (allThreeComp path) := by
  unfold allThreeComp; infer_instance

/-! ## Supporting lemmas -/

lemma accFrom_cons (a : ℚ) (l : List ℚ) : ∃ rest, accFrom a l = a :: rest := by
  cases l <;> exact ⟨_, rfl⟩

lemma accFrom_length (a : ℚ) (l : List ℚ) : (accFrom a l).length = l.length + 1 := by
  induction l generalizing a with
  | nil => rfl
  | cons x xs ih => simp [accFrom, ih]

lemma accFrom_getLast (a : ℚ) (l : List ℚ) :
    (accFrom a l).getLast? = some (a + l.sum) := by
  induction l generalizing a with
  | nil => simp [accFrom]
  | cons x xs ih =>
    obtain ⟨rest, hr⟩ := accFrom_cons (a + x) xs
    rw [show accFrom a (x :: xs) = a :: accFrom (a + x) xs from rfl, hr,
      List.getLast?_cons_cons, ← hr, ih]
    rw [List.sum_cons, ← add_assoc]

lemma pathSegs_length (p : List Loc) : (pathSegs p).length = p.length - 1 := by
  unfold pathSegs
  rw [List.length_zipWith, List.length_tail]
  omega

lemma allOnLast_length (n : ℕ) (d : ℚ) : (allOnLast n d).length = n := by
  unfold allOnLast
  split_ifs with h
  · simp [h]
  · simp
    omega

lemma allOnLast_sum (n : ℕ) (hn : n ≠ 0) (d : ℚ) : (allOnLast n d).sum = d := by
  unfold allOnLast
  rw [if_neg hn]
  simp [List.sum_replicate]

lemma sum_map_scale (l : List ℚ) (c t : ℚ) :
    (l.map (fun s => c * s / t)).sum = c * l.sum / t := by
  induction l with
  | nil => simp
  | cons x xs ih =>
    simp [ih]
    ring

lemma distribute_time_tail (p : List Loc) (d : ℚ) :
    ((distributeTimeDist p d).1).tail
      = (if (pathSegs p).sum = 0 then allOnLast (pathSegs p).length d
        else (pathSegs p).map (fun s => d * s / (pathSegs p).sum)) := rfl

lemma distribute_time_tail_length (p : List Loc) (d : ℚ) :
    ((distributeTimeDist p d).1).tail.length = p.length - 1 := by
  rw [distribute_time_tail]
  split_ifs
  · rw [allOnLast_length, pathSegs_length]
  · rw [List.length_map, pathSegs_length]

lemma distribute_time_tail_sum (p : List Loc) (d : ℚ) (h2 : 2 ≤ p.length) :
    ((distributeTimeDist p d).1).tail.sum = d := by
  have hlen : (pathSegs p).length ≠ 0 := by
    rw [pathSegs_length]; omega
  rw [distribute_time_tail]
  split_ifs with h
  · exact allOnLast_sum _ hlen d
  · rw [sum_map_scale, mul_div_assoc, div_self h, mul_one]

lemma mkRows_eq_cons {ps : List Loc} {ts : List ℚ} {r : Row} {rest : List Row}
    (h : mkRows ps ts = r :: rest) :
    ∃ p1 p2 ps' t1 t2 ts', ps = p1 :: p2 :: ps' ∧ ts = t1 :: t2 :: ts'
      ∧ r = mkRow p1 p2 t1 t2 := by
  rcases ps with _ | ⟨p1, _ | ⟨p2, ps'⟩⟩ <;>
    rcases ts with _ | ⟨t1, _ | ⟨t2, ts'⟩⟩ <;>
    simp [mkRows] at h
  exact ⟨p1, p2, ps', t1, t2, ts', rfl, rfl, h.1.symm⟩

lemma chainOk_mkRows (ps : List Loc) : ∀ ts, chainOk (mkRows ps ts) := by
  induction ps with
  | nil => intro ts; exact trivial
  | cons p1 rest ih =>
    intro ts
    rcases rest with _ | ⟨p2, ps'⟩
    · exact trivial
    · rcases ts with _ | ⟨t1, _ | ⟨t2, ts'⟩⟩
      · exact trivial
      · exact trivial
      · show chainOk (mkRow p1 p2 t1 t2 :: mkRows (p2 :: ps') (t2 :: ts'))
        rcases hmk : mkRows (p2 :: ps') (t2 :: ts') with _ | ⟨r2, rs⟩
        · exact trivial
        · obtain ⟨q1, q2, qs', s1, s2, ss', hq, hs, hr⟩ := mkRows_eq_cons hmk
          have hq1 : q1 = p2 := by injection hq with h1 _; exact h1.symm
          have hs1 : s1 = t2 := by injection hs with h1 _; exact h1.symm
          refine ⟨?_, ?_⟩
          · subst hr hq1 hs1
            exact ⟨rfl, rfl, rfl⟩
          · rw [← hmk]
            exact ih (t2 :: ts')

lemma mkRows_getLast (ps : List Loc) : ∀ ts : List ℚ, ps.length = ts.length →
    2 ≤ ps.length →
    ((mkRows ps ts).getLast?).map Row.endTimeSec = ts.getLast? := by
  induction ps with
  | nil => intro ts _ h2; simp at h2
  | cons p1 rest ih =>
    intro ts hlen h2
    rcases rest with _ | ⟨p2, ps'⟩
    · simp at h2
    · rcases ts with _ | ⟨t1, _ | ⟨t2, ts'⟩⟩
      · simp at hlen
      · simp at hlen
      · rcases ps' with _ | ⟨p3, ps''⟩
        · have hts' : ts' = [] := by
            simp at hlen
            exact hlen
          subst hts'
          simp [mkRows, mkRow]
        · rcases ts' with _ | ⟨t3, ts''⟩
          · simp at hlen
          · rw [show mkRows (p1 :: p2 :: p3 :: ps'') (t1 :: t2 :: t3 :: ts'')
                = mkRow p1 p2 t1 t2 :: mkRows (p2 :: p3 :: ps'') (t2 :: t3 :: ts'')
                from rfl]
            obtain ⟨r2, rs, hmk⟩ : ∃ r2 rs,
                mkRows (p2 :: p3 :: ps'') (t2 :: t3 :: ts'') = r2 :: rs :=
              ⟨_, _, rfl⟩
            rw [hmk, List.getLast?_cons_cons, ← hmk, List.getLast?_cons_cons]
            exact ih (t2 :: t3 :: ts'') (by simpa using hlen) (by simp)

lemma contiguous_mkRows (ps : List Loc) (t : ℚ) (l : List ℚ) :
    contiguousFrom t (mkRows ps (accFrom t l)) := by
  unfold contiguousFrom
  refine ⟨?_, chainOk_mkRows ps (accFrom t l)⟩
  rcases hmk : mkRows ps (accFrom t l) with _ | ⟨r, rest⟩
  · exact trivial
  · obtain ⟨p1, p2, ps', t1, t2, ts', _, hts, hr⟩ := mkRows_eq_cons hmk
    obtain ⟨rest2, hacc⟩ := accFrom_cons t l
    rw [hacc] at hts
    have ht1 : t1 = t := by injection hts with h1 _; exact h1.symm
    subst hr ht1
    rfl

lemma contiguous_single (s : Loc) (t : ℚ) (expD : Option ℚ) :
    contiguousFrom t [singleRow s t expD] := by
  exact ⟨rfl, trivial⟩

lemma _euc_some_path {s e : Loc} {sp x : Option ℚ} {ptd : List Loc × List ℚ × List ℚ}
    (h : _eucGetShapepointsTimeDist s e sp x = some ptd) : ptd.1 = [s, e] := by
  unfold _eucGetShapepointsTimeDist at h
  rw [Option.map_eq_some'] at h
  obtain ⟨t, _, hf⟩ := h
  rw [← hf]

lemma _man_some_path {s e : Loc} {sp x : Option ℚ} {vf : Bool}
    {ptd : List Loc × List ℚ × List ℚ}
    (h : _manGetShapepointsTimeDist s e sp x vf = some ptd) :
    ptd.1 = [s, manCorner s e vf, e] := by
  unfold _manGetShapepointsTimeDist at h
  rw [Option.map_eq_some'] at h
  obtain ⟨t, _, hf⟩ := h
  rw [← hf]

lemma selectRoute_some_len {rt : String} {dp : Option String} {s e : Loc}
    {sp x : Option ℚ} {prov ptd : List Loc × List ℚ × List ℚ}
    (h : selectRoute rt dp s e sp x prov = some (some ptd))
    (hp : 2 ≤ prov.1.length) : 2 ≤ ptd.1.length := by
  unfold selectRoute at h
  split_ifs at h
  · rw [_euc_some_path (Option.some.inj h)]
    simp
  · rw [_man_some_path (Option.some.inj h)]
    simp
  · rw [← Option.some.inj (Option.some.inj h)]
    exact hp
  · rw [← Option.some.inj (Option.some.inj h)]
    exact hp
  · rw [← Option.some.inj (Option.some.inj h)]
    exact hp
  · rw [← Option.some.inj (Option.some.inj h)]
    exact hp

lemma selectRoute_unsupported {rt : String} {dp : Option String} (s e : Loc)
    (sp x : Option ℚ) (prov : List Loc × List ℚ × List ℚ)
    (h : ¬ recognizedCombo rt dp) :
    selectRoute rt dp s e sp x prov = none := by
  unfold recognizedCombo at h
  unfold selectRoute
  split_ifs with h1 h2 h3 h4 h5 h6
  · exact absurd (Or.inl h1) h
  · exact absurd (Or.inr (Or.inl h2)) h
  · exact absurd (Or.inr (Or.inr (Or.inl h3))) h
  · exact absurd (Or.inr (Or.inr (Or.inr (Or.inl h4)))) h
  · exact absurd (Or.inr (Or.inr (Or.inr (Or.inr (Or.inl h5))))) h
  · exact absurd (Or.inr (Or.inr (Or.inr (Or.inr (Or.inr h6))))) h
  · rfl

lemma assemble_some_shape {t : ℚ} {expD sp : Option ℚ}
    {ptd : List Loc × List ℚ × List ℚ} {rows : List Row}
    (h : assemble t expD sp ptd = some rows) :
    ∃ l, rows = mkRows ptd.1 (accFrom t l) := by
  unfold assemble at h
  split at h
  · exact ⟨_, (Option.some.inj h).symm⟩
  · split at h
    · split_ifs at h
      exact ⟨_, (Option.some.inj h).symm⟩
    · split_ifs at h
      exact ⟨_, (Option.some.inj h).symm⟩

lemma assemble_expD {t dur : ℚ} {sp : Option ℚ}
    {ptd : List Loc × List ℚ × List ℚ} {rows : List Row}
    (h : assemble t (some dur) sp ptd = some rows) :
    rows = mkRows ptd.1 (accFrom t ((distributeTimeDist ptd.1 dur).1).tail) :=
  (Option.some.inj h).symm

lemma mkRows_distribute_last (path : List Loc) (t dur : ℚ) (h2 : 2 ≤ path.length) :
    ((mkRows path (accFrom t ((distributeTimeDist path dur).1).tail)).getLast?).map
      Row.endTimeSec = some (t + dur) := by
  have hlen : path.length
      = (accFrom t ((distributeTimeDist path dur).1).tail).length := by
    rw [accFrom_length, distribute_time_tail_length]
    omega
  rw [mkRows_getLast path _ hlen h2, accFrom_getLast,
    distribute_time_tail_sum path dur h2]

lemma valGetShapepoints2D_euc_example :
    valGetShapepoints2D [0, 0] [1, 1] 5 (some 10) ("euclidean2D") none none := by
  refine ⟨?_, ?_, by norm_num, ?_, ?_, ?_, ?_⟩
  · exact ⟨Or.inl rfl, by norm_num [List.getD]⟩
  · exact ⟨Or.inl rfl, by norm_num [List.getD]⟩
  · intro d hd
    rw [← Option.some.inj hd]
    norm_num
  · intro v hv
    exact Option.noConfusion hv
  · exact Or.inl (by decide)
  · intro _
    exact Or.inl rfl

lemma getShapepoints2D_euc_example :
    getShapepoints2D [0, 0] [1, 1] 5 (some 10) ("euclidean2D") none none
      ([[0, 0], [1, 1]], [0, 1], [0, 1])
      = some [(⟨5, 0, 0, 0, 15, 1, 1, 0⟩ : Row)] := by
  have hval := valGetShapepoints2D_euc_example
  have hvne : ¬ ¬ valGetShapepoints2D [0, 0] [1, 1] 5 (some 10) ("euclidean2D")
      none none := not_not_intro hval
  have hne : ¬ (([0, 0] : Loc) = [1, 1]) := by simp
  have hlow : lowerStr ("euclidean2D") = "euclidean2d" := by decide
  have hgeo : geoDistance2D [0, 0] [1, 1] = 2 := by
    norm_num [geoDistance2D, List.getD]
  unfold getShapepoints2D
  rw [if_neg hvne, if_neg hne]
  have hsel : selectRoute (lowerStr ("euclidean2D"))
      ((none : Option String).map lowerStr) [0, 0] [1, 1] none (some 10)
      ([[0, 0], [1, 1]], [0, 1], [0, 1])
      = some (some ([[0, 0], [1, 1]], [0, 10], [0, geoDistance2D [0, 0] [1, 1]])) := by
    rw [hlow]
    unfold selectRoute
    rw [if_pos rfl]
    rfl
  rw [hsel]
  show assemble 5 (some 10) none ([[0, 0], [1, 1]], [0, 10], [0, geoDistance2D [0, 0] [1, 1]])
    = _
  unfold assemble distributeTimeDist
  have hsegs : pathSegs [[0, 0], [1, 1]] = [geoDistance2D [0, 0] [1, 1]] := rfl
  rw [hsegs, hgeo]
  norm_num [accFrom, mkRows, mkRow, loc2Dict, List.getD]

/-! ## Claim theorems -/

/-- C1: for every call to `getShapepoints2D` accepted by validation with
`startLoc` distinct from `endLoc` and an `expDurationSec` override supplied,
the per-segment travel times are redistributed by `distributeTimeDist` so
that they absorb exactly `expDurationSec`: the last output row's
`endTimeSec` equals `startTimeSec + expDurationSec` (exactly, the rational
model's rendering of "within floating tolerance").  The provider-path length
hypothesis is the Path contract of spec §3 (length ≥ 2). -/
theorem getShapepoints2D_expDuration_lastRow
    (startLoc endLoc : Loc) (startTimeSec dur : ℚ) (routeType : String)
    (speedMPS : Option ℚ) (dataProvider : Option String)
    (prov : List Loc × List ℚ × List ℚ) (rows : List Row)
    (hne : startLoc ≠ endLoc)
    (hp : 2 ≤ prov.1.length)
    (hres : getShapepoints2D startLoc endLoc startTimeSec (some dur) routeType
      speedMPS dataProvider prov = some rows) :
    (rows.getLast?).map Row.endTimeSec = some (startTimeSec + dur) := by
  unfold getShapepoints2D at hres
  by_cases hval : valGetShapepoints2D startLoc endLoc startTimeSec (some dur)
      routeType speedMPS dataProvider
  · rw [if_neg (not_not_intro hval), if_neg hne] at hres
    split at hres
    · exact Option.noConfusion hres
    · exact Option.noConfusion hres
    · rename_i ptd heq
      rw [assemble_expD hres]
      exact mkRows_distribute_last ptd.1 startTimeSec dur
        (selectRoute_some_len heq hp)
  · rw [if_pos hval] at hres
    exact Option.noConfusion hres

/-- Witness for C1 at a concrete accepted input: euclidean2D from [0,0] to
[1,1], start time 5, duration override 10; the single output row ends at
time 15 = 5 + 10. -/
theorem getShapepoints2D_expDuration_lastRow_witness :
    (([0, 0] : Loc) ≠ [1, 1])
    ∧ 2 ≤ ([[0, 0], [1, 1]] : List Loc).length
    ∧ getShapepoints2D [0, 0] [1, 1] 5 (some 10) ("euclidean2D") none none
        ([[0, 0], [1, 1]], [0, 1], [0, 1]) = some [(⟨5, 0, 0, 0, 15, 1, 1, 0⟩ : Row)]
    ∧ (([(⟨5, 0, 0, 0, 15, 1, 1, 0⟩ : Row)].getLast?).map Row.endTimeSec
        = some (5 + 10)) :=
  ⟨by simp, by simp, getShapepoints2D_euc_example,
    getShapepoints2D_expDuration_lastRow [0, 0] [1, 1] 5 10 ("euclidean2D")
      none none ([[0, 0], [1, 1]], [0, 1], [0, 1]) _ (by simp) (by simp)
      getShapepoints2D_euc_example⟩

/-- C8: every Assignments dataframe returned by `getShapepoints2D` is
contiguous in time and space: the first row departs at the caller-supplied
`startTimeSec`, and each row's `endTimeSec` / end latitude / end longitude
equal the next row's `startTimeSec` / start latitude / start longitude. -/
theorem getShapepoints2D_contiguous
    (startLoc endLoc : Loc) (startTimeSec : ℚ) (expDurationSec : Option ℚ)
    (routeType : String) (speedMPS : Option ℚ) (dataProvider : Option String)
    (prov : List Loc × List ℚ × List ℚ) (rows : List Row)
    (hres : getShapepoints2D startLoc endLoc startTimeSec expDurationSec
      routeType speedMPS dataProvider prov = some rows) :
    contiguousFrom startTimeSec rows := by
  unfold getShapepoints2D at hres
  by_cases hval : valGetShapepoints2D startLoc endLoc startTimeSec expDurationSec
      routeType speedMPS dataProvider
  · by_cases hloc : startLoc = endLoc
    · rw [if_neg (not_not_intro hval), if_pos hloc] at hres
      rw [← Option.some.inj hres]
      exact contiguous_single startLoc startTimeSec expDurationSec
    · rw [if_neg (not_not_intro hval), if_neg hloc] at hres
      split at hres
      · exact Option.noConfusion hres
      · exact Option.noConfusion hres
      · obtain ⟨l, hl⟩ := assemble_some_shape hres
        rw [hl]
        exact contiguous_mkRows _ startTimeSec l
  · rw [if_pos hval] at hres
    exact Option.noConfusion hres

/-- Witness for C8 at a concrete accepted input. -/
theorem getShapepoints2D_contiguous_witness :
    getShapepoints2D [0, 0] [1, 1] 5 (some 10) ("euclidean2D") none none
        ([[0, 0], [1, 1]], [0, 1], [0, 1]) = some [(⟨5, 0, 0, 0, 15, 1, 1, 0⟩ : Row)]
    ∧ contiguousFrom 5 [(⟨5, 0, 0, 0, 15, 1, 1, 0⟩ : Row)] :=
  ⟨getShapepoints2D_euc_example,
    getShapepoints2D_contiguous [0, 0] [1, 1] 5 (some 10) ("euclidean2D")
      none none ([[0, 0], [1, 1]], [0, 1], [0, 1]) _ getShapepoints2D_euc_example⟩

/-- C3: a call whose routeType/dataProvider combination is not one of the
recognized pairings produces no output rows: validation (spec §7) rejects
it up front so `getShapepoints2D` returns nothing, and independently the
dispatch chain's final `else: return` (source line 286-287) selects no
route.  Never a partial or malformed dataframe. -/
theorem getShapepoints2D_unsupportedCombo_none
    (startLoc endLoc : Loc) (startTimeSec : ℚ) (expDurationSec : Option ℚ)
    (routeType : String) (speedMPS : Option ℚ) (dataProvider : Option String)
    (prov : List Loc × List ℚ × List ℚ)
    (hcomb : ¬ recognizedCombo (lowerStr routeType) (dataProvider.map lowerStr)) :
    getShapepoints2D startLoc endLoc startTimeSec expDurationSec routeType
      speedMPS dataProvider prov = none
    ∧ selectRoute (lowerStr routeType) (dataProvider.map lowerStr) startLoc
      endLoc speedMPS expDurationSec prov = none := by
  constructor
  · unfold getShapepoints2D
    rw [if_pos (show ¬ valGetShapepoints2D startLoc endLoc startTimeSec
      expDurationSec routeType speedMPS dataProvider from
      fun hval => hcomb hval.2.2.2.2.2.1)]
  · exact selectRoute_unsupported startLoc endLoc speedMPS expDurationSec prov hcomb

/-- Witness for C3: routeType 'cycling' with dataProvider 'MapQuest' is not
a recognized pairing; no rows are produced. -/
theorem getShapepoints2D_unsupportedCombo_none_witness :
    (¬ recognizedCombo (lowerStr ("cycling")) ((some ("MapQuest")).map lowerStr))
    ∧ (getShapepoints2D [0, 0] [1, 1] 0 none ("cycling") none (some ("MapQuest"))
        ([], [], []) = none
      ∧ selectRoute (lowerStr ("cycling")) ((some ("MapQuest")).map lowerStr)
        [0, 0] [1, 1] none none ([], [], []) = none) :=
  ⟨by decide,
    getShapepoints2D_unsupportedCombo_none [0, 0] [1, 1] 0 none ("cycling")
      none (some ("MapQuest")) ([], [], []) (by decide)⟩

/-- C2 counterexample: `startLoc = [40, -78]` and `endLoc = [40, -78, 0]` are
a coordinate match (identical 2D projection and identical lat/lon/alt
dictionary), yet the source's branch test is Python list equality, the two
lists differ, and the manhattan pipeline emits two rows, not one. -/
theorem getShapepoints2D_coordMatch_counterex :
    proj2 [40, -78] = proj2 [40, -78, 0]
    ∧ loc2Dict [40, -78] = loc2Dict [40, -78, 0]
    ∧ (getShapepoints2D [40, -78] [40, -78, 0] 0 none ("manhattan") (some 1)
        none ([], [], [])).map List.length = some 2 := by
  refine ⟨rfl, rfl, ?_⟩
  have hval : valGetShapepoints2D [40, -78] [40, -78, 0] 0 none ("manhattan")
      (some 1) none := by
    refine ⟨⟨Or.inl rfl, by norm_num [List.getD]⟩,
      ⟨Or.inr rfl, by norm_num [List.getD]⟩, le_refl 0, ?_, ?_, ?_, ?_⟩
    · intro d hd
      exact Option.noConfusion hd
    · intro v hv
      rw [← Option.some.inj hv]
      norm_num
    · exact Or.inr (Or.inl (by decide))
    · intro _
      exact Or.inr rfl
  have hne : ¬ (([40, -78] : Loc) = [40, -78, 0]) := by simp
  unfold getShapepoints2D
  rw [if_neg (not_not_intro hval), if_neg hne]
  have hsel : selectRoute (lowerStr ("manhattan"))
      ((none : Option String).map lowerStr) [40, -78] [40, -78, 0] (some 1)
      none ([], [], [])
      = some (_manGetShapepointsTimeDist [40, -78] [40, -78, 0] (some 1) none) := by
    rw [show lowerStr ("manhattan") = "manhattan" from by decide]
    unfold selectRoute
    rw [if_neg (by decide), if_pos rfl]
  rw [hsel]
  have hman : _manGetShapepointsTimeDist [40, -78] [40, -78, 0] (some 1) none
      = some ([[40, -78], [40, -78], [40, -78, 0]], [0, 0, 0], [0, 0, 0]) := by
    unfold _manGetShapepointsTimeDist manCorner manTime
    norm_num [geoDistance2D, List.getD]
  rw [hman]
  norm_num [assemble, distributeTimeDist, pathSegs, geoDistance2D, allOnLast,
    accFrom, mkRows, mkRow, loc2Dict, List.getD, List.replicate]

/-- C2 (amended): for every validated call in which `startLoc` equals
`endLoc` as lists (identical length and components — the source's Python
list-equality test, line 270), the function returns exactly one row with
zero spatial displacement (equal start/end latitude, longitude and
altitude), `startTimeSec` as supplied, and `endTimeSec` equal to
`startTimeSec + expDurationSec` when an override is supplied, else
`startTimeSec`. -/
theorem getShapepoints2D_listEq_singleRow
    (startLoc : Loc) (startTimeSec : ℚ) (expDurationSec : Option ℚ)
    (routeType : String) (speedMPS : Option ℚ) (dataProvider : Option String)
    (prov : List Loc × List ℚ × List ℚ)
    (hval : valGetShapepoints2D startLoc startLoc startTimeSec expDurationSec
      routeType speedMPS dataProvider) :
    getShapepoints2D startLoc startLoc startTimeSec expDurationSec routeType
      speedMPS dataProvider prov
      = some [singleRow startLoc startTimeSec expDurationSec]
    ∧ (singleRow startLoc startTimeSec expDurationSec).startTimeSec = startTimeSec
    ∧ (singleRow startLoc startTimeSec expDurationSec).startLat
      = (singleRow startLoc startTimeSec expDurationSec).endLat
    ∧ (singleRow startLoc startTimeSec expDurationSec).startLon
      = (singleRow startLoc startTimeSec expDurationSec).endLon
    ∧ (singleRow startLoc startTimeSec expDurationSec).startAltMeters
      = (singleRow startLoc startTimeSec expDurationSec).endAltMeters
    ∧ (singleRow startLoc startTimeSec expDurationSec).endTimeSec
      = (match expDurationSec with
        | some dur => startTimeSec + dur
        | none => startTimeSec) := by
  refine ⟨?_, rfl, rfl, rfl, rfl, ?_⟩
  · unfold getShapepoints2D
    rw [if_neg (not_not_intro hval), if_pos rfl]
  · cases expDurationSec with
    | none => rfl
    | some dur =>
      show dur + startTimeSec = startTimeSec + dur
      ring

/-- Witness for C2 (amended) at a concrete validated input with
`startLoc = endLoc = [0, 0]`, start time 5 and duration override 7. -/
theorem getShapepoints2D_listEq_singleRow_witness :
    valGetShapepoints2D [0, 0] [0, 0] 5 (some 7) ("euclidean2D") none none
    ∧ (getShapepoints2D [0, 0] [0, 0] 5 (some 7) ("euclidean2D") none none
        ([], [], []) = some [singleRow [0, 0] 5 (some 7)]
      ∧ (singleRow [0, 0] 5 (some 7)).startTimeSec = 5
      ∧ (singleRow [0, 0] 5 (some 7)).startLat = (singleRow [0, 0] 5 (some 7)).endLat
      ∧ (singleRow [0, 0] 5 (some 7)).startLon = (singleRow [0, 0] 5 (some 7)).endLon
      ∧ (singleRow [0, 0] 5 (some 7)).startAltMeters
        = (singleRow [0, 0] 5 (some 7)).endAltMeters
      ∧ (singleRow [0, 0] 5 (some 7)).endTimeSec
        = (match (some 7 : Option ℚ) with
          | some dur => 5 + dur
          | none => 5)) := by
  have hval : valGetShapepoints2D [0, 0] [0, 0] 5 (some 7) ("euclidean2D")
      none none := by
    refine ⟨⟨Or.inl rfl, by norm_num [List.getD]⟩,
      ⟨Or.inl rfl, by norm_num [List.getD]⟩, by norm_num, ?_, ?_, ?_, ?_⟩
    · intro d hd
      rw [← Option.some.inj hd]
      norm_num
    · intro v hv
      exact Option.noConfusion hv
    · exact Or.inl (by decide)
    · intro _
      exact Or.inl rfl
  exact ⟨hval, getShapepoints2D_listEq_singleRow [0, 0] 5 (some 7)
    ("euclidean2D") none none ([], [], []) hval⟩

/-- C4 is contradicted by the code: the input below is accepted by the
modelled validation, its start and end are a 2D coordinate match written
with different list arities (so the Python list-equality guard of line 270
does not divert it), and the manhattan proportional split
`expDurationSec * dist[1] / (dist[1] + dist[2])` (source line 405) then
divides by `dist[1] + dist[2] = 0`: a `ZeroDivisionError` (modelled `none`),
not a special-cased deterministic result. -/
theorem manhattan_divzero_coordMatch :
    valGetShapepoints2D [40, -78] [40, -78, 0] 0 (some 100) ("manhattan")
      none none
    ∧ geoDistance2D [40, -78] (manCorner [40, -78] [40, -78, 0] true)
      + geoDistance2D (manCorner [40, -78] [40, -78, 0] true) [40, -78, 0] = 0
    ∧ _manGetShapepointsTimeDist [40, -78] [40, -78, 0] none (some 100) = none
    ∧ getShapepoints2D [40, -78] [40, -78, 0] 0 (some 100) ("manhattan") none
      none ([], [], []) = none := by
  have hval : valGetShapepoints2D [40, -78] [40, -78, 0] 0 (some 100)
      ("manhattan") none none := by
    refine ⟨⟨Or.inl rfl, by norm_num [List.getD]⟩,
      ⟨Or.inr rfl, by norm_num [List.getD]⟩, le_refl 0, ?_, ?_, ?_, ?_⟩
    · intro d hd
      rw [← Option.some.inj hd]
      norm_num
    · intro v hv
      exact Option.noConfusion hv
    · exact Or.inr (Or.inl (by decide))
    · intro _
      exact Or.inl rfl
  have hsum : geoDistance2D [40, -78] (manCorner [40, -78] [40, -78, 0] true)
      + geoDistance2D (manCorner [40, -78] [40, -78, 0] true) [40, -78, 0] = 0 := by
    norm_num [geoDistance2D, manCorner, List.getD]
  have hman : _manGetShapepointsTimeDist [40, -78] [40, -78, 0] none (some 100)
      = none := by
    unfold _manGetShapepointsTimeDist manCorner manTime
    norm_num [geoDistance2D, List.getD]
  refine ⟨hval, hsum, hman, ?_⟩
  have hne : ¬ (([40, -78] : Loc) = [40, -78, 0]) := by simp
  unfold getShapepoints2D
  rw [if_neg (not_not_intro hval), if_neg hne]
  have hsel : selectRoute (lowerStr ("manhattan"))
      ((none : Option String).map lowerStr) [40, -78] [40, -78, 0] none
      (some 100) ([], [], [])
      = some (_manGetShapepointsTimeDist [40, -78] [40, -78, 0] none (some 100)) := by
    rw [show lowerStr ("manhattan") = "manhattan" from by decide]
    unfold selectRoute
    rw [if_neg (by decide), if_pos rfl]
  rw [hsel, hman]

lemma manD1_eq (s e : Loc) :
    geoDistance2D s (manCorner s e true) = |s.getD 0 0 - e.getD 0 0| := by
  show |s.getD 0 0 - e.getD 0 0| + |s.getD 1 0 - s.getD 1 0| = _
  simp

lemma manD2_eq (s e : Loc) :
    geoDistance2D (manCorner s e true) e = |s.getD 1 0 - e.getD 1 0| := by
  show |e.getD 0 0 - e.getD 0 0| + |s.getD 1 0 - e.getD 1 0| = _
  simp

lemma manSum_ne (s e : Loc)
    (hne : s.getD 0 0 ≠ e.getD 0 0 ∨ s.getD 1 0 ≠ e.getD 1 0) :
    geoDistance2D s (manCorner s e true)
      + geoDistance2D (manCorner s e true) e ≠ 0 := by
  rw [manD1_eq, manD2_eq]
  intro h
  have h0 : (0 : ℚ) ≤ |s.getD 0 0 - e.getD 0 0| := abs_nonneg _
  have h1 : (0 : ℚ) ≤ |s.getD 1 0 - e.getD 1 0| := abs_nonneg _
  rcases hne with hne | hne
  · have : |s.getD 0 0 - e.getD 0 0| = 0 := by linarith
    exact hne (sub_eq_zero.mp (abs_eq_zero.mp this))
  · have : |s.getD 1 0 - e.getD 1 0| = 0 := by linarith
    exact hne (sub_eq_zero.mp (abs_eq_zero.mp this))

/-- C5: in manhattan mode with 2D-distinct start and end, a supplied total
duration is split between the two segments in proportion to their geodesic
(`geoDistance2D`) lengths — `dur * d1 / (d1 + d2)` and `dur * d2 / (d1 + d2)`,
which sum to `dur` exactly — and without a duration each segment's time is
its length divided by `speedMPS` (source lines 404-407). -/
theorem manhattan_time_split (s e : Loc) (dur v : ℚ)
    (hne : s.getD 0 0 ≠ e.getD 0 0 ∨ s.getD 1 0 ≠ e.getD 1 0)
    (hv : v ≠ 0) :
    _manGetShapepointsTimeDist s e none (some dur)
      = some ([s, manCorner s e true, e],
        [0, dur * geoDistance2D s (manCorner s e true)
            / (geoDistance2D s (manCorner s e true)
              + geoDistance2D (manCorner s e true) e),
          dur * geoDistance2D (manCorner s e true) e
            / (geoDistance2D s (manCorner s e true)
              + geoDistance2D (manCorner s e true) e)],
        [0, geoDistance2D s (manCorner s e true),
          geoDistance2D (manCorner s e true) e])
    ∧ dur * geoDistance2D s (manCorner s e true)
        / (geoDistance2D s (manCorner s e true)
          + geoDistance2D (manCorner s e true) e)
      + dur * geoDistance2D (manCorner s e true) e
        / (geoDistance2D s (manCorner s e true)
          + geoDistance2D (manCorner s e true) e) = dur
    ∧ _manGetShapepointsTimeDist s e (some v) none
      = some ([s, manCorner s e true, e],
        [0, geoDistance2D s (manCorner s e true) / v,
          geoDistance2D (manCorner s e true) e / v],
        [0, geoDistance2D s (manCorner s e true),
          geoDistance2D (manCorner s e true) e]) := by
  refine ⟨?_, ?_, ?_⟩
  · unfold _manGetShapepointsTimeDist manTime
    dsimp only
    rw [if_neg (manSum_ne s e hne)]
    rfl
  · rw [div_add_div_same, ← mul_add, mul_div_assoc,
      div_self (manSum_ne s e hne), mul_one]
  · unfold _manGetShapepointsTimeDist manTime
    dsimp only
    rw [if_neg hv]
    rfl

/-- Witness for C5 at start [0,0], end [1,1], duration 10, speed 2. -/
theorem manhattan_time_split_witness :
    (([0, 0] : Loc).getD 0 0 ≠ ([1, 1] : Loc).getD 0 0
      ∨ ([0, 0] : Loc).getD 1 0 ≠ ([1, 1] : Loc).getD 1 0)
    ∧ (2 : ℚ) ≠ 0
    ∧ (_manGetShapepointsTimeDist [0, 0] [1, 1] none (some 10)
        = some ([[0, 0], manCorner [0, 0] [1, 1] true, [1, 1]],
          [0, 10 * geoDistance2D [0, 0] (manCorner [0, 0] [1, 1] true)
              / (geoDistance2D [0, 0] (manCorner [0, 0] [1, 1] true)
                + geoDistance2D (manCorner [0, 0] [1, 1] true) [1, 1]),
            10 * geoDistance2D (manCorner [0, 0] [1, 1] true) [1, 1]
              / (geoDistance2D [0, 0] (manCorner [0, 0] [1, 1] true)
                + geoDistance2D (manCorner [0, 0] [1, 1] true) [1, 1])],
          [0, geoDistance2D [0, 0] (manCorner [0, 0] [1, 1] true),
            geoDistance2D (manCorner [0, 0] [1, 1] true) [1, 1]])
      ∧ 10 * geoDistance2D [0, 0] (manCorner [0, 0] [1, 1] true)
          / (geoDistance2D [0, 0] (manCorner [0, 0] [1, 1] true)
            + geoDistance2D (manCorner [0, 0] [1, 1] true) [1, 1])
        + 10 * geoDistance2D (manCorner [0, 0] [1, 1] true) [1, 1]
          / (geoDistance2D [0, 0] (manCorner [0, 0] [1, 1] true)
            + geoDistance2D (manCorner [0, 0] [1, 1] true) [1, 1]) = 10
      ∧ _manGetShapepointsTimeDist [0, 0] [1, 1] (some 2) none
        = some ([[0, 0], manCorner [0, 0] [1, 1] true, [1, 1]],
          [0, geoDistance2D [0, 0] (manCorner [0, 0] [1, 1] true) / 2,
            geoDistance2D (manCorner [0, 0] [1, 1] true) [1, 1] / 2],
          [0, geoDistance2D [0, 0] (manCorner [0, 0] [1, 1] true),
            geoDistance2D (manCorner [0, 0] [1, 1] true) [1, 1]])) :=
  ⟨Or.inl (by norm_num [List.getD]), by norm_num,
    manhattan_time_split [0, 0] [1, 1] 10 2 (Or.inl (by norm_num [List.getD]))
      (by norm_num)⟩

/-- C6 counterexample: with start [0,0] and end [3,7], the default
(vertical-first) manhattan path's corner is [3,0] — it shares the END's
latitude and the START's longitude — and is not the [0,7] that the claim's
"corner shares start's latitude and end's longitude" would give. -/
theorem manhattan_corner_counterex :
    manCorner [0, 0] [3, 7] true = [3, 0]
    ∧ ¬ (manCorner [0, 0] [3, 7] true = [0, 7])
    ∧ (_manGetShapepointsTimeDist [0, 0] [3, 7] (some 1) none).map Prod.fst
      = some [[0, 0], [3, 0], [3, 7]]
    ∧ ¬ ((_manGetShapepointsTimeDist [0, 0] [3, 7] (some 1) none).map Prod.fst
      = some [[0, 0], [0, 7], [3, 7]]) := by
  refine ⟨rfl, by norm_num [manCorner, List.getD], ?_, ?_⟩
  · unfold _manGetShapepointsTimeDist manTime
    norm_num [manCorner, geoDistance2D, List.getD]
  · unfold _manGetShapepointsTimeDist manTime
    norm_num [manCorner, geoDistance2D, List.getD]

/-- C6 (amended): in manhattan mode the generated path is
[start, corner, end] where in the DEFAULT (vertical-first) configuration the
corner shares the END's latitude and the START's longitude
(`[endLoc[0], startLoc[1]]`, source line 398), and in the horizontal-first
configuration (`verticalFirst=False`) it shares the START's latitude and the
END's longitude (`[startLoc[0], endLoc[1]]`, source line 401). -/
theorem manhattan_corner_shape (s e : Loc) (v : ℚ) (hv : v ≠ 0) :
    (_manGetShapepointsTimeDist s e (some v) none).map Prod.fst
      = some [s, [e.getD 0 0, s.getD 1 0], e]
    ∧ (_manGetShapepointsTimeDist s e (some v) none false).map Prod.fst
      = some [s, [s.getD 0 0, e.getD 1 0], e]
    ∧ manCorner s e true = [e.getD 0 0, s.getD 1 0]
    ∧ manCorner s e false = [s.getD 0 0, e.getD 1 0] := by
  refine ⟨?_, ?_, rfl, rfl⟩
  · unfold _manGetShapepointsTimeDist manTime
    dsimp only
    rw [if_neg hv]
    rfl
  · unfold _manGetShapepointsTimeDist manTime
    dsimp only
    rw [if_neg hv]
    rfl

/-- Witness for C6 (amended) at start [0,0], end [3,7], speed 1. -/
theorem manhattan_corner_shape_witness :
    (1 : ℚ) ≠ 0
    ∧ ((_manGetShapepointsTimeDist [0, 0] [3, 7] (some 1) none).map Prod.fst
        = some [[0, 0], [([3, 7] : Loc).getD 0 0, ([0, 0] : Loc).getD 1 0], [3, 7]]
      ∧ (_manGetShapepointsTimeDist [0, 0] [3, 7] (some 1) none false).map Prod.fst
        = some [[0, 0], [([0, 0] : Loc).getD 0 0, ([3, 7] : Loc).getD 1 0], [3, 7]]
      ∧ manCorner [0, 0] [3, 7] true
        = [([3, 7] : Loc).getD 0 0, ([0, 0] : Loc).getD 1 0]
      ∧ manCorner [0, 0] [3, 7] false
        = [([0, 0] : Loc).getD 0 0, ([3, 7] : Loc).getD 1 0]) :=
  ⟨by norm_num,
    manhattan_corner_shape [0, 0] [3, 7] 1 (by norm_num)⟩

lemma zip_mem_fst {α : Type} : ∀ (l1 l2 : List α) (v : α), v ∈ l1 →
    l1.length = l2.length → ∃ b, (v, b) ∈ List.zip l1 l2 := by
  intro l1
  induction l1 with
  | nil => intro l2 v hv _; exact absurd hv (List.not_mem_nil v)
  | cons x xs ih =>
    intro l2 v hv hlen
    rcases l2 with _ | ⟨y, ys⟩
    · simp at hlen
    · rcases List.mem_cons.mp hv with h | h
      · refine ⟨y, ?_⟩
        rw [h]
        exact List.mem_cons_self _ _
      · obtain ⟨b, hb⟩ := ih ys v h (by simpa using hlen)
        exact ⟨b, List.mem_cons_of_mem _ hb⟩

lemma mem_polyEdges_fst {l : List (ℚ × ℚ)} {v : ℚ × ℚ} (hv : v ∈ l) :
    ∃ b, (v, b) ∈ polyEdges l := by
  rcases l with _ | ⟨p, ps⟩
  · exact absurd hv (List.not_mem_nil v)
  · exact zip_mem_fst (p :: ps) (ps ++ [p]) v hv (by simp)

lemma onSegment2_self (a b : ℚ × ℚ) : onSegment2 a a b := by
  unfold onSegment2 cross2
  refine ⟨by ring, min_le_left _ _, le_max_left _ _, min_le_left _ _,
    le_max_left _ _⟩

lemma geoIsPointInPoly_boundary (p : ℚ × ℚ) (poly : List (ℚ × ℚ))
    (h : onPolyBoundary p poly) : geoIsPointInPoly p poly = true := by
  obtain ⟨e, he, hon⟩ := h
  unfold geoIsPointInPoly
  rw [if_pos]
  rw [List.any_eq_true]
  exact ⟨e, he, decide_eq_true hon⟩

/-- C7: for every validated polygon (at least 3 vertices) and every point
that is a vertex of the polygon, or more generally lies exactly on an edge
or vertex of the polygon's (2D-projected) boundary, `isPointInPoly`
classifies it as inside — the test is boundary-inclusive. -/
theorem isPointInPoly_boundary_inclusive (loc : Loc) (poly : List Loc)
    (hval : valIsPointInPoly loc poly)
    (hb : loc ∈ poly ∨ onPolyBoundary (proj2 loc) (poly.map proj2)) :
    isPointInPoly loc poly = some true := by
  unfold isPointInPoly
  rw [if_neg (not_not_intro hval)]
  have hgeo : geoIsPointInPoly (proj2 loc) (poly.map proj2) = true := by
    apply geoIsPointInPoly_boundary
    rcases hb with h | h
    · obtain ⟨b, hb2⟩ := mem_polyEdges_fst (List.mem_map_of_mem proj2 h)
      exact ⟨(proj2 loc, b), hb2, onSegment2_self _ _⟩
    · exact h
  rw [hgeo]

/-- Witness for C7: the vertex [2,0] of the triangle [0,0],[2,0],[0,2] is
classified inside. -/
theorem isPointInPoly_boundary_inclusive_witness :
    valIsPointInPoly [2, 0] [[0, 0], [2, 0], [0, 2]]
    ∧ ([2, 0] : Loc) ∈ ([[0, 0], [2, 0], [0, 2]] : List Loc)
    ∧ isPointInPoly [2, 0] [[0, 0], [2, 0], [0, 2]] = some true := by
  have hval : valIsPointInPoly [2, 0] [[0, 0], [2, 0], [0, 2]] := by
    refine ⟨Or.inl rfl, by norm_num, ?_⟩
    intro q hq
    rcases List.mem_cons.mp hq with h | hq
    · rw [h]; exact Or.inl rfl
    rcases List.mem_cons.mp hq with h | hq
    · rw [h]; exact Or.inl rfl
    rcases List.mem_cons.mp hq with h | hq
    · rw [h]; exact Or.inl rfl
    · exact absurd hq (List.not_mem_nil q)
  have hmem : ([2, 0] : Loc) ∈ ([[0, 0], [2, 0], [0, 2]] : List Loc) :=
    List.Mem.tail _ (List.Mem.head _)
  exact ⟨hval, hmem,
    isPointInPoly_boundary_inclusive [2, 0] [[0, 0], [2, 0], [0, 2]] hval
      (Or.inl hmem)⟩

lemma len3_shape {l : Loc} (h : l.length = 3) : ∃ a b c, l = [a, b, c] := by
  match l, h with
  | [a, b, c], _ => exact ⟨a, b, c, rfl⟩

lemma zeroAlt_of_len3 {l : Loc} (h : l.length = 3) :
    (zeroAlt l).length = 3 ∧ (zeroAlt l).getD 2 0 = 0 := by
  obtain ⟨a, b, c, rfl⟩ := len3_shape h
  exact ⟨rfl, rfl⟩

lemma geoClosest_len3 (loc : Loc) {a : Loc} (b : Loc) (ha : a.length = 3) :
    (geoClosestPointLoc2Line loc a b).length = 3 := by
  unfold geoClosestPointLoc2Line
  split_ifs <;> rfl

lemma cpLoop_alt_zero (loc : Loc) : ∀ (lines : List (Loc × Loc))
    (d : Option ℚ) (mp : Option Loc),
    (∀ ln ∈ lines, (ln.1 : Loc).length = 3) →
    (∀ l, mp = some l → l.length = 3 ∧ l.getD 2 0 = 0) →
    ∀ l, (cpLoop loc lines d mp).2 = some l → l.length = 3 ∧ l.getD 2 0 = 0 := by
  intro lines
  induction lines with
  | nil => intro d mp _ hmp l hl; exact hmp l hl
  | cons ln rest ih =>
    intro d mp hlines hmp l hl
    refine ih _ _ (fun x hx => hlines x (List.mem_cons_of_mem _ hx)) ?_ l hl
    intro l2 hl2
    rw [Option.map_eq_some'] at hl2
    obtain ⟨l3, hl3, hz⟩ := hl2
    split_ifs at hl3 with hupd
    · have h3 : l3.length = 3 := by
        rw [← Option.some.inj hl3]
        exact geoClosest_len3 loc ln.2 (hlines ln (List.mem_cons_self _ _))
      rw [← hz]
      exact zeroAlt_of_len3 h3
    · rw [← hz]
      exact zeroAlt_of_len3 (hmp l3 hl3).1

/-- C9: for every accepted call to `closestPointLoc2Path` whose path points
all have three components, the returned nearest point has three components
and its altitude has been zeroed by the in-loop
`if (len(minPoint)==3): minPoint[2] = 0` (source lines 1838-1839),
regardless of the altitudes carried by the path's points. -/
theorem closestPointLoc2Path_altZero (loc : Loc) (path : List Loc)
    (mp : Loc) (d : ℚ)
    (h3 : allThreeComp path)
    (hres : closestPointLoc2Path loc path = some (mp, d)) :
    mp.length = 3 ∧ mp.getD 2 0 = 0 := by
  unfold closestPointLoc2Path at hres
  by_cases hval : valClosestPointLoc2Path loc path
  · rw [if_neg (not_not_intro hval)] at hres
    split at hres
    · rename_i d2 mp2 heq
      have hmp2 := cpLoop_alt_zero loc (List.zip path path.tail) none none
        (fun ln hln => h3 ln.1 (List.of_mem_zip hln).1)
        (fun l hl => Option.noConfusion hl) mp2 (by rw [heq])
      have hpair := Option.some.inj hres
      injection hpair with ha hb
      rw [← ha]
      exact hmp2
    · exact Option.noConfusion hres
  · rw [if_pos hval] at hres
    exact Option.noConfusion hres

/-- Witness for C9: for loc [0,1,9] and the 3-component path
[[0,0,5],[1,0,7]], the nearest point is returned with altitude zeroed. -/
theorem closestPointLoc2Path_altZero_witness :
    allThreeComp [[0, 0, 5], [1, 0, 7]]
    ∧ closestPointLoc2Path [0, 1, 9] [[0, 0, 5], [1, 0, 7]]
      = some ([0, 0, 0], 1)
    ∧ (([0, 0, 0] : Loc).length = 3 ∧ ([0, 0, 0] : Loc).getD 2 0 = 0) := by
  have h3 : allThreeComp [[0, 0, 5], [1, 0, 7]] := by decide
  have hval : valClosestPointLoc2Path [0, 1, 9] [[0, 0, 5], [1, 0, 7]] := by
    refine ⟨Or.inr rfl, by norm_num, ?_⟩
    intro q hq
    rcases List.mem_cons.mp hq with h | hq
    · rw [h]; exact Or.inr rfl
    rcases List.mem_cons.mp hq with h | hq
    · rw [h]; exact Or.inr rfl
    · exact absurd hq (List.not_mem_nil q)
  have hres : closestPointLoc2Path [0, 1, 9] [[0, 0, 5], [1, 0, 7]]
      = some ([0, 0, 0], 1) := by
    unfold closestPointLoc2Path
    rw [if_neg (not_not_intro hval)]
    have hcp : geoClosestPointLoc2Line [0, 1, 9] [0, 0, 5] [1, 0, 7]
        = [0, 0, 5] := by
      unfold geoClosestPointLoc2Line segParam clampUnit proj2
      norm_num [List.getD]
    have hmd : geoMinDistLoc2Line [0, 1, 9] [0, 0, 5] [1, 0, 7] = 1 := by
      unfold geoMinDistLoc2Line proj2
      rw [hcp]
      norm_num [List.getD]
    show (match cpLoop [0, 1, 9]
        (List.zip [[0, 0, 5], [1, 0, 7]] (List.tail [[0, 0, 5], [1, 0, 7]]))
        none none with
      | (some d, some mp) => some (mp, d)
      | _ => none) = some ([0, 0, 0], 1)
    have hloop : cpLoop [0, 1, 9]
        (List.zip [[0, 0, 5], [1, 0, 7]] (List.tail [[0, 0, 5], [1, 0, 7]]))
        none none = (some 1, some [0, 0, 0]) := by
      show cpLoop [0, 1, 9] [([0, 0, 5], [1, 0, 7])] none none = _
      unfold cpLoop cpBetter
      rw [hmd, hcp]
      norm_num [zeroAlt]
      rfl
    rw [hloop]
  exact ⟨h3, hres,
    closestPointLoc2Path_altZero [0, 1, 9] [[0, 0, 5], [1, 0, 7]] [0, 0, 0] 1
      h3 hres⟩

/-- C10: `getConvexHull` rebuilds its output by re-matching each 2D hull
vertex against every input location with an absolute 0.0001-degree tolerance
on both latitude and longitude (source lines 1287-1291), appending, for each
hull vertex in hull order, every input location within tolerance.  At the
input below (hull vertex indices 0,1,2 — the triangle — with a fourth,
strictly interior location within 0.0001 degrees of hull vertex [0,0]), the
returned list has 4 entries for a 3-vertex hull and contains the interior
location [3/100000, 3/100000], which is not a hull vertex. -/
theorem getConvexHull_tolerance_overcount :
    getConvexHull [[0, 0], [0, 1], [1, 0], [3 / 100000, 3 / 100000]] [0, 1, 2]
      = some [[0, 0], [3 / 100000, 3 / 100000], [0, 1], [1, 0]]
    ∧ nearHullVertex [0, 0] [3 / 100000, 3 / 100000]
    ∧ ¬ (([3 / 100000, 3 / 100000] : Loc)
        ∈ ([[0, 0], [0, 1], [1, 0]] : List Loc))
    ∧ ([[0, 0], [3 / 100000, 3 / 100000], [0, 1], [1, 0]] : List Loc).length = 4
    ∧ ([0, 1, 2] : List ℕ).length = 3 := by
  refine ⟨?_, ?_, ?_, rfl, rfl⟩
  · have hval : valGetConvexHull [[0, 0], [0, 1], [1, 0], [3 / 100000, 3 / 100000]] := by
      refine ⟨by norm_num, ?_⟩
      intro q hq
      rcases List.mem_cons.mp hq with h | hq
      · rw [h]; exact Or.inl rfl
      rcases List.mem_cons.mp hq with h | hq
      · rw [h]; exact Or.inl rfl
      rcases List.mem_cons.mp hq with h | hq
      · rw [h]; exact Or.inl rfl
      rcases List.mem_cons.mp hq with h | hq
      · rw [h]; exact Or.inl rfl
      · exact absurd hq (List.not_mem_nil q)
    unfold getConvexHull
    rw [if_neg (not_not_intro hval)]
    norm_num [nearHullVertex, List.getD, List.flatMap, List.filter]
    rw [show (decide (|(3 : ℚ) / 100000| < 1 / 10000)) = true from
        decide_eq_true (by rw [abs_lt]; constructor <;> norm_num),
      show (decide (|(99997 : ℚ) / 100000| < 1 / 10000)) = false from
        decide_eq_false (by rw [abs_lt]; push_neg; intro _; norm_num)]
    norm_num
  · unfold nearHullVertex
    norm_num [List.getD, abs_lt]
  · norm_num
